import Mathlib

/-!
Shallow embedding of `src/distaff.py` (the schema-driven validation and
coercion engine) and proofs about it.

Modelling conventions:
* Python values are the inductive type `PyVal`.  Python dicts are modelled
  as association lists with string keys in insertion order (all dicts the
  engine manipulates — schema documents, data records, traversal results —
  use string keys in the repository).
* The `MISSING` singleton is `PyVal.missing`, `None` is `PyVal.none`.
  Python `bool` is a subclass of `int`; `isinstance` checks model that.
* The mutable error accumulator `{'errors': [...], 'count': n}` created in
  `Distaff.__init__` is the `Errors` structure, threaded explicitly.  The
  `errors` parameter of `Distaff.process` is either that shared root
  accumulator or Python `None` (nested calls omit it); the boolean
  `errsIsNone` records which.
* Exceptions are the `Except PyExc` monad.  Raised `ValidationError`s that
  the engine may catch are distinguished from other exceptions (`KeyError`,
  `TypeError`, `ValueError`, `AttributeError`) which propagate.
* `Distaff.process` recurses through `traverse`; the embedding uses a fuel
  parameter, with `PyExc.fuelExhausted` signalling exhaustion.  Claims are
  stated for arbitrary fuel, so any behaviour reachable at some finite
  recursion depth is covered.
-/

inductive PyVal : Type where
  | missing : PyVal
  | none : PyVal
  | bool : Bool → PyVal
  | int : Int → PyVal
  | str : String → PyVal
  | date : Nat → Nat → Nat → PyVal
  | list : List PyVal → PyVal
  | dict : List (String × PyVal) → PyVal
deriving Repr

/-- Python exceptions that can escape `Distaff.process`, plus the
fuel-exhaustion marker of the embedding. -/
inductive PyExc : Type where
  | validationError : List String → Nat → PyExc
  | typeError : String → PyExc
  | keyError : String → PyExc
  | valueError : String → PyExc
  | attributeError : String → PyExc
  | fuelExhausted : PyExc
deriving Repr, DecidableEq

/-- The shared error accumulator `self.errors = {'errors': [], 'count': 0}`. -/
structure Errors : Type where
  errors : List String
  count : Nat
deriving Repr, DecidableEq

/-- Association-list lookup modelling `d.get(k)` / `d[k]` on a Python dict
(first binding wins; Python dicts never hold duplicate keys). -/
def dictGet (kvs : List (String × PyVal)) (k : String) : Option PyVal :=
  (kvs.find? (fun kv => kv.1 == k)).map (fun kv => kv.2)

/-- Models `k in d` on a Python dict. -/
def containsKey (kvs : List (String × PyVal)) (k : String) : Bool :=
  (dictGet kvs k).isSome

/-- Models `d.get(k, MISSING)` (used in `Dict.traverse`). -/
def dictGetD (kvs : List (String × PyVal)) (k : String) : PyVal :=
  (dictGet kvs k).getD .missing

/-- Models `d.setdefault(k, v)` (used in `Schema.process`): insertion at the
end when the key is absent. -/
def setdefault (kvs : List (String × PyVal)) (k : String) (v : PyVal) :
    List (String × PyVal) :=
  if containsKey kvs k then kvs else kvs ++ [(k, v)]

/-- Python truthiness of a value (`if self.schema['required']`,
`if path`, `if self.errors['count']`...).  The `MISSING` sentinel is an
ordinary object and therefore truthy. -/
def pyTruthy : PyVal → Bool
  | .missing => true
  | .none => false
  | .bool b => b
  | .int n => n != 0
  | .str s => s != ""
  | .date _ _ _ => true
  | .list xs => !xs.isEmpty
  | .dict kvs => !kvs.isEmpty

theorem dictGet_sizeOf_lt {ys : List (String × PyVal)} {k : String}
    {w : PyVal} (h : dictGet ys k = some w) : sizeOf w < sizeOf ys := by
  unfold dictGet at h
  obtain ⟨kv, hfind, hw⟩ := Option.map_eq_some'.mp h
  have hmem := List.mem_of_find?_eq_some hfind
  have h1 := List.sizeOf_lt_of_mem hmem
  cases kv with
  | mk a b => simp at hw; subst hw; simp at h1 ⊢; omega

mutual

/-- Python `==` equality: `True == 1` and `False == 0` hold because `bool`
is a subclass of `int`; lists compare elementwise; dicts compare as
mappings (order-insensitively). -/
def pyEq : PyVal → PyVal → Bool
  | .missing, .missing => true
  | .none, .none => true
  | .bool a, .bool b => a == b
  | .bool a, .int n => (if a then (1 : Int) else 0) == n
  | .int n, .bool a => n == (if a then (1 : Int) else 0)
  | .int m, .int n => m == n
  | .str s, .str t => s == t
  | .date y m d, .date y' m' d' => y == y' && m == m' && d == d'
  | .list xs, .list ys => pyEqList xs ys
  | .dict xs, .dict ys => pyEqDict xs ys && pyEqDict ys xs
  | _, _ => false
termination_by a b => sizeOf a + sizeOf b

/-- Elementwise Python equality of lists. -/
def pyEqList : List PyVal → List PyVal → Bool
  | [], [] => true
  | x :: xs, y :: ys => pyEq x y && pyEqList xs ys
  | _, _ => false
termination_by xs ys => sizeOf xs + sizeOf ys

/-- One inclusion of Python dict equality: every binding of the first dict
is matched by an equal binding in the second. -/
def pyEqDict : List (String × PyVal) → List (String × PyVal) → Bool
  | [], _ => true
  | (k, v) :: xs, ys =>
    (match h : dictGet ys k with
     | some w => pyEq v w
     | Option.none => false) && pyEqDict xs ys
termination_by xs ys => sizeOf xs + sizeOf ys
decreasing_by
  all_goals simp_wf
  have := dictGet_sizeOf_lt h; omega

end

/-- The registered type tags (`Distaff.types`). -/
inductive Ty : Type where
  | schema | boolean | integer | string | date | list | dict | any
deriving Repr, DecidableEq

/-- Models the `Distaff.types` registry lookup by string tag. -/
def typesLookup : String → Option Ty
  | "schema" => some .schema
  | "boolean" => some .boolean
  | "integer" => some .integer
  | "string" => some .string
  | "date" => some .date
  | "list" => some .list
  | "dict" => some .dict
  | "any" => some .any
  | _ => Option.none

/-- True exactly on the `MISSING` sentinel. -/
def isMissing : PyVal → Bool
  | .missing => true
  | _ => false

/-- True exactly on Python `None`. -/
def isNone : PyVal → Bool
  | .none => true
  | _ => false

/-- `Field.isna`: `value is None or value is MISSING`; `Any.isna` only
checks `value is MISSING`. -/
def isnaFn (t : Ty) (v : PyVal) : Bool :=
  match t with
  | .any => isMissing v
  | _ => isNone v || isMissing v

/-- Python `isinstance(value, native_type)` for each plugin's native type.
`bool` is a subclass of `int`, so booleans are instances of `int`. -/
def isinstanceNative (t : Ty) (v : PyVal) : Bool :=
  match t, v with
  | .boolean, .bool _ => true
  | .integer, .int _ => true
  | .integer, .bool _ => true
  | .string, .str _ => true
  | .date, .date _ _ _ => true
  | .list, .list _ => true
  | .dict, .dict _ => true
  | .schema, .dict _ => true
  | .any, _ => true
  | _, _ => false

/-- Python `repr` of a type object, as interpolated by `%r` in the error
message templates (`"<class 'int'>"` and so on). -/
def nativeTypeRepr : Ty → String
  | .boolean => "<class 'bool'>"
  | .integer => "<class 'int'>"
  | .string => "<class 'str'>"
  | .date => "<class 'datetime.date'>"
  | .list => "<class 'list'>"
  | .dict => "<class 'dict'>"
  | .schema => "<class 'dict'>"
  | .any => "<class 'object'>"

/-- Python `repr` of `type(value)` for the embedded values. -/
def typeOfRepr : PyVal → String
  | .missing => "<class 'distaff.Missing'>"
  | .none => "<class 'NoneType'>"
  | .bool _ => "<class 'bool'>"
  | .int _ => "<class 'int'>"
  | .str _ => "<class 'str'>"
  | .date _ _ _ => "<class 'datetime.date'>"
  | .list _ => "<class 'list'>"
  | .dict _ => "<class 'dict'>"

mutual

/-- Python `repr` of a value (used via `%r` in message templates).  String
escaping inside the quotes is not modelled; no message the engine builds is
examined beyond whole-string equality. -/
def pyRepr : PyVal → String
  | .missing => "MISSING"
  | .none => "None"
  | .bool b => if b then "True" else "False"
  | .int n => toString n
  | .str s => "'" ++ s ++ "'"
  | .date y m d => "datetime.date(" ++ toString y ++ ", " ++ toString m ++
      ", " ++ toString d ++ ")"
  | .list xs => "[" ++ pyReprList xs ++ "]"
  | .dict kvs => "\x7b" ++ pyReprDict kvs ++ "\x7d"

/-- Comma-separated reprs of list elements. -/
def pyReprList : List PyVal → String
  | [] => ""
  | [x] => pyRepr x
  | x :: xs => pyRepr x ++ ", " ++ pyReprList xs

/-- Comma-separated reprs of dict entries. -/
def pyReprDict : List (String × PyVal) → String
  | [] => ""
  | [(k, v)] => "'" ++ k ++ "': " ++ pyRepr v
  | (k, v) :: kvs => "'" ++ k ++ "': " ++ pyRepr v ++ ", " ++ pyReprDict kvs

end


/-- ASCII digit value of a character, if any. -/
def parseDigit (c : Char) : Option Nat :=
  if c = '0' then some 0 else if c = '1' then some 1
  else if c = '2' then some 2 else if c = '3' then some 3
  else if c = '4' then some 4 else if c = '5' then some 5
  else if c = '6' then some 6 else if c = '7' then some 7
  else if c = '8' then some 8 else if c = '9' then some 9
  else Option.none

/-- The ASCII digit character for a value below ten. -/
def digitChar : Nat → Char
  | 0 => '0' | 1 => '1' | 2 => '2' | 3 => '3' | 4 => '4'
  | 5 => '5' | 6 => '6' | 7 => '7' | 8 => '8' | 9 => '9'
  | _ => '0'

/-- Whitespace as stripped by Python `int(str)`. -/
def isPySpace (c : Char) : Bool :=
  c = ' ' || c = '\t' || c = '\n' || c = '\r'

/-- Value of a nonempty all-digit character sequence. -/
def digitsVal : List Char → Option Nat
  | [] => Option.none
  | cs => cs.foldl (fun acc c =>
      match acc, parseDigit c with
      | some a, some d => some (a * 10 + d)
      | _, _ => Option.none) (some 0)

/-- Modelled from the spec: Python's built-in `int(str)` (external standard
library behaviour used by `Integer.native`): optional surrounding
whitespace, an optional sign, then one or more ASCII digits.  (Underscore
digit grouping and non-ASCII digits are not modelled.) -/
def pythonInt (s : String) : Option Int :=
  let cs := ((s.data.dropWhile isPySpace).reverse.dropWhile isPySpace).reverse
  match cs with
  | '+' :: rest => (digitsVal rest).map (fun n => (n : Int))
  | '-' :: rest => (digitsVal rest).map (fun n => -(n : Int))
  | rest => (digitsVal rest).map (fun n => (n : Int))

/-- Gregorian leap-year test, as used by `datetime.date`. -/
def isLeap (y : Nat) : Bool :=
  y % 4 == 0 && (y % 100 != 0 || y % 400 == 0)

/-- Number of days in a month, as enforced by `datetime.date`. -/
def daysInMonth (y m : Nat) : Nat :=
  if m == 2 then (if isLeap y then 29 else 28)
  else if m == 4 || m == 6 || m == 9 || m == 11 then 30
  else 31

/-- The constructor constraints of `datetime.date`: year in 1..9999, valid
month, day within the month. -/
def validYMD (y m d : Nat) : Bool :=
  1 ≤ y && y ≤ 9999 && 1 ≤ m && m ≤ 12 && 1 ≤ d && d ≤ daysInMonth y m

/-- One or two leading ASCII digits, maximal munch, with the remaining
characters (the `%m` and `%d` patterns of `strptime` accept one or two
digits; out-of-range values are rejected by `validYMD` afterwards, which
matches the combined regex/constructor behaviour). -/
def parse2 : List Char → Option (Nat × List Char)
  | [] => Option.none
  | [a] => (parseDigit a).map (fun da => (da, ([] : List Char)))
  | a :: b :: rest =>
    match parseDigit a, parseDigit b with
    | some da, some db => some (da * 10 + db, rest)
    | some da, Option.none => some (da, b :: rest)
    | Option.none, _ => Option.none

/-- Modelled from the spec: `datetime.datetime.strptime(value, "%Y-%m-%d")`
followed by `.date()` (external standard library behaviour used by
`Date.native`): exactly four digits of year, a dash, one or two digits of
month, a dash, one or two digits of day, the whole string consumed, and the
triple accepted by the `datetime.date` constructor. -/
def parseYMD (cs : List Char) : Option (Nat × Nat × Nat) :=
  match cs with
  | c1 :: c2 :: c3 :: c4 :: '-' :: rest =>
    match parseDigit c1, parseDigit c2, parseDigit c3, parseDigit c4 with
    | some a, some b, some c, some d =>
      let y := ((a * 10 + b) * 10 + c) * 10 + d
      (match parse2 rest with
       | some (m, '-' :: rest2) =>
         (match parse2 rest2 with
          | some (dd, []) =>
            if validYMD y m dd then some (y, m, dd) else Option.none
          | _ => Option.none)
       | _ => Option.none)
    | _, _, _, _ => Option.none
  | _ => Option.none

/-- Modelled from the spec: `value.strftime('%Y-%m-%d')` (external standard
library behaviour used by `Date.json`), with the year zero-padded to four
digits and month and day to two. -/
def formatDate (y m d : Nat) : String :=
  String.mk ([digitChar (y / 1000), digitChar (y / 100 % 10),
    digitChar (y / 10 % 10), digitChar (y % 10), '-',
    digitChar (m / 10), digitChar (m % 10), '-',
    digitChar (d / 10), digitChar (d % 10)])

/-- Errors arising inside the `try` block of `Distaff.process`: a raised
`ValidationError` (caught by the handler) or any other exception
(propagates). -/
inductive VErr : Type where
  | validation : String → VErr
  | exc : PyExc → VErr
deriving Repr, DecidableEq

/-- Python iteration (`itertools.cycle(x)`, `zip(..., x)`, `for ... in x`):
lists yield elements, dicts yield their keys, strings yield one-character
strings; other values are not iterable (`TypeError`). -/
def pyIter : PyVal → Option (List PyVal)
  | .list xs => some xs
  | .dict kvs => some (kvs.map (fun kv => .str kv.1))
  | .str s => some (s.data.map (fun c => .str (String.mk [c])))
  | _ => Option.none

/-- Models `Field.native`: return the value when it is an instance of the
plugin's native type, else raise `ValidationError`. -/
def fieldNative (t : Ty) (v : PyVal) : Except VErr PyVal :=
  if isinstanceNative t v then .ok v
  else .error (.validation ("can't convert " ++ typeOfRepr v ++ " into " ++
    nativeTypeRepr t))

/-- The class attribute `Boolean.false` (the token list actually read by
`Boolean.native`; the `_schema` class attributes are never consulted). -/
def booleanFalse : List String := ["false", "0", "no", "off"]

/-- The class attribute `Boolean.true`. -/
def booleanTrue : List String := ["true", "1", "yes", "on"]

/-- Modelled from the spec: matching one `strptime` format pattern
(external standard library).  Only the default pattern `%Y-%m-%d` — the
only pattern the repository configures — is given parsing semantics; any
other pattern is modelled as never matching. -/
def strptimeModel (fmt : String) (s : String) : Option (Nat × Nat × Nat) :=
  if fmt = "%Y-%m-%d" then parseYMD s.data else Option.none

/-- The `for format in ...` loop of `Date.native`: try each format, first
match wins; a `ValueError` from `strptime` is caught and means no match,
but a non-string format raises `TypeError`, which propagates. -/
def dateTryFormats (fmts : List PyVal) (s : String) :
    Except VErr (Option (Nat × Nat × Nat)) :=
  match fmts with
  | [] => .ok Option.none
  | fmt :: rest =>
    match fmt with
    | .str f =>
      (match strptimeModel f s with
       | some ymd => .ok (some ymd)
       | Option.none => dateTryFormats rest s)
    | _ => .error (.exc (.typeError "strptime() argument 1 must be str"))

/-- Coercion (`native`) of each plugin, dispatched on the type tag.
`Integer.native` calls the bare built-in `int()` on strings, whose failure
is a `ValueError`, not a `ValidationError`; `String.native` tests
`isinstance(value, int)` first, which is true of booleans, so booleans
stringify as `str(True) = 'True'`; `Date.native` reads the format list from
`self.schema.get('format', self.format)`. -/
def nativeFn (t : Ty) (schema : List (String × PyVal)) (v : PyVal) :
    Except VErr PyVal :=
  match t, v with
  | .boolean, .str s =>
    if s ∈ booleanFalse then .ok (.bool false)
    else if s ∈ booleanTrue then .ok (.bool true)
    else .error (.validation ("can't convert " ++ pyRepr (.str s) ++
      " into " ++ nativeTypeRepr .boolean))
  | .integer, .str s =>
    (match pythonInt s with
     | some n => .ok (.int n)
     | Option.none => .error (.exc (.valueError
         ("invalid literal for int() with base 10: " ++ pyRepr (.str s)))))
  | .string, .int n => .ok (.str (toString n))
  | .string, .bool b => .ok (.str (if b then "True" else "False"))
  | .date, .str s =>
    (match pyIter ((dictGet schema "format").getD
        (.list [.str "%Y-%m-%d"])) with
     | Option.none => .error (.exc (.typeError "'int' object is not iterable"))
     | some fmts =>
       (match dateTryFormats fmts s with
        | .error e => .error e
        | .ok (some (y, m, d)) => .ok (.date y m d)
        | .ok Option.none => fieldNative .date (.str s)))
  | .any, _ => .ok v
  | _, _ => fieldNative t v

/-- Contiguous-substring test on character lists (Python `sub in s` for
strings). -/
def charsInfix (sub : List Char) : List Char → Bool
  | [] => sub.isEmpty
  | c :: rest => List.isPrefixOf sub (c :: rest) || charsInfix sub rest

/-- Models Python `x in container` (the `choices` membership test). -/
def pyContains (container x : PyVal) : Except PyExc Bool :=
  match container with
  | .list xs => .ok (xs.any (fun e => pyEq x e))
  | .dict kvs => .ok (kvs.any (fun kv => pyEq x (.str kv.1)))
  | .str s =>
    (match x with
     | .str sub => .ok (charsInfix sub.data s.data)
     | _ => .error (.typeError "'in <string>' requires string as left operand"))
  | _ => .error (.typeError ("argument of type " ++ typeOfRepr container ++
      " is not iterable"))

/-- Models `Field.validate` (and the `Any.validate` override): the
NA/required check, then the native-type instance check, then the `choices`
membership check.  `Field.validate` subscripts `self.schema['required']`
and `self.schema['choices']` directly, so a schema dict lacking those keys
raises `KeyError`; `Any.validate` uses `schema.get('required', False)` and
performs no type or choices check. -/
def validateFn (t : Ty) (schema : List (String × PyVal)) (v : PyVal) :
    Except VErr Unit :=
  match t with
  | .any =>
    if isMissing v then
      (if pyTruthy ((dictGet schema "required").getD (.bool false)) then
        .error (.validation "a value is required")
      else .ok ())
    else .ok ()
  | _ =>
    if isNone v || isMissing v then
      (match dictGet schema "required" with
       | Option.none => .error (.exc (.keyError "required"))
       | some r =>
         if pyTruthy r then .error (.validation "a value is required")
         else .ok ())
    else
      if !isinstanceNative t v then
        .error (.validation ("got " ++ typeOfRepr v ++
          ", but expected type was " ++ nativeTypeRepr t))
      else
        (match dictGet schema "choices" with
         | Option.none => .error (.exc (.keyError "choices"))
         | some cv =>
           if pyTruthy cv then
             (match pyContains cv v with
              | .error e => .error (.exc e)
              | .ok true => .ok ()
              | .ok false => .error (.validation (pyRepr v ++
                  " is not one of " ++ pyRepr cv)))
           else .ok ())

/-- Models `Field.json` / `Date.json`: dates are rendered through
`strftime` with the class default format (the `Date.json` method reads
`self.format`, never the schema); every other value passes through.  A
non-date value reaching `Date.json` lacks the `strftime` attribute. -/
def jsonFn (t : Ty) (v : PyVal) : Except PyExc PyVal :=
  match t, v with
  | .date, .date y m d => .ok (.str (formatDate y m d))
  | .date, _ => .error (.attributeError "strftime")
  | _, _ => .ok v

/-- The two output modes of `Distaff.process`. -/
inductive Output : Type where
  | native | json
deriving Repr, DecidableEq

/-- One path component (`path + (key,)`): a dict key or a list index. -/
inductive Key : Type where
  | s : String → Key
  | n : Nat → Key
deriving Repr, DecidableEq

/-- The `except ValidationError` handler body of `Distaff.process`:
`dtype.errors['errors'].append(str(e))` — a `TypeError` when the frame's
`errors` parameter is `None` (every nested frame's is, since `traverse`
passes no `errors`) — then `self.errors['count'] += 1` on the shared root
accumulator, after which the frame returns its current `data`. -/
def recordErr (errsIsNone : Bool) (msg : String) (st : Errors) (d : PyVal) :
    Except PyExc (PyVal × Errors) :=
  if errsIsNone then
    .error (.typeError "'NoneType' object is not subscriptable")
  else .ok (d, ⟨st.errors ++ [msg], st.count + 1⟩)

/-- Lines 268-270 of `Distaff.process`: `if 'default' in schema and data is
MISSING: data = schema['default']`. -/
def substDefault (schema : List (String × PyVal)) (data : PyVal) : PyVal :=
  if containsKey schema "default" && isMissing data then
    dictGetD schema "default"
  else data

/-- Lines 272-274 of `Distaff.process`: `if 'fillna' in schema and
dtype.isna(data): data = schema['fillna']`. -/
def substFillna (t : Ty) (schema : List (String × PyVal)) (data : PyVal) :
    PyVal :=
  if containsKey schema "fillna" && isnaFn t data then
    dictGetD schema "fillna"
  else data

/-- Models `self.types[schema['type']]`: dispatch on the type tag.  A
non-string hashable tag misses the registry (`KeyError`); an unhashable tag
(list, dict) is a `TypeError`. -/
def typesKeyLookup : PyVal → Except PyExc Ty
  | .str tag =>
    (match typesLookup tag with
     | some t => .ok t
     | Option.none => .error (.keyError tag))
  | .list _ => .error (.typeError "unhashable type: 'list'")
  | .dict _ => .error (.typeError "unhashable type: 'dict'")
  | v => .error (.keyError (pyRepr v))

/-- Models `Schema.process`'s mutation of the child schema before
delegating: `schema.setdefault('choices', None)` then
`schema.setdefault('required', False)`.  A non-dict child has no
`setdefault` attribute. -/
def schemaSetdefaults : PyVal → Except PyExc PyVal
  | .dict d => .ok (.dict (setdefault (setdefault d "choices" .none)
      "required" (.bool false)))
  | _ => .error (.attributeError "setdefault")

/-- Models `value.get(key, MISSING)` inside `Dict.traverse`: `AttributeError`
when the traversed value is not a dict. -/
def pyGetMethod (data : PyVal) (k : String) : Except PyExc PyVal :=
  match data with
  | .dict kvs => .ok (dictGetD kvs k)
  | _ => .error (.attributeError "get")

/-- The loop of `Dict.traverse` when the schema declares `items`: process
each declared key against `value.get(key, MISSING)`, building the result
dict in declaration order.  `proc` is the nested `self.distaff.process`
call (which receives no `errors` argument).  Under a `Schema` parent the
child schema first passes through `Schema.process`'s `setdefault` calls. -/
def dictItemsGo
    (proc : PyVal → PyVal → List Key → Errors → Except PyExc (PyVal × Errors))
    (schemaParent : Bool) (items : List (String × PyVal)) (data : PyVal)
    (path : List Key) (st : Errors) :
    Except PyExc (List (String × PyVal) × Errors) :=
  match items with
  | [] => .ok ([], st)
  | (k, sub) :: rest =>
    match (if schemaParent then schemaSetdefaults sub else .ok sub) with
    | .error e => .error e
    | .ok sub' =>
      match pyGetMethod data k with
      | .error e => .error e
      | .ok dval =>
        match proc sub' dval (path ++ [.s k]) st with
        | .error e => .error e
        | .ok (v, st') =>
          match dictItemsGo proc schemaParent rest data path st' with
          | .error e => .error e
          | .ok (ps, st'') => .ok ((k, v) :: ps, st'')

/-- The loop of `Dict.traverse` when the schema declares no `items`: every
present key is processed against `dtype('key')` — a type tag that is not in
the registry. -/
def dictNoItemsGo
    (proc : PyVal → PyVal → List Key → Errors → Except PyExc (PyVal × Errors))
    (schemaParent : Bool) (kvs : List (String × PyVal))
    (path : List Key) (st : Errors) :
    Except PyExc (List (String × PyVal) × Errors) :=
  match kvs with
  | [] => .ok ([], st)
  | (k, v) :: rest =>
    match (if schemaParent then
        schemaSetdefaults (.dict [("type", .str "key")])
      else .ok (.dict [("type", .str "key")])) with
    | .error e => .error e
    | .ok sub' =>
      match proc sub' v (path ++ [.s k]) st with
      | .error e => .error e
      | .ok (v', st') =>
        match dictNoItemsGo proc schemaParent rest path st' with
        | .error e => .error e
        | .ok (ps, st'') => .ok ((k, v') :: ps, st'')

/-- The loop of `List.traverse`: `enumerate(zip(itertools.cycle(items),
value))`, processing element `i` against `items[i % len(items)]`. -/
def listItemsGo
    (proc : PyVal → PyVal → List Key → Errors → Except PyExc (PyVal × Errors))
    (its : List PyVal) (elems : List PyVal) (i : Nat)
    (path : List Key) (st : Errors) :
    Except PyExc (List PyVal × Errors) :=
  match elems with
  | [] => .ok ([], st)
  | e :: rest =>
    match proc (its.getD (i % its.length) .missing) e (path ++ [.n i]) st with
    | .error e' => .error e'
    | .ok (v, st') =>
      match listItemsGo proc its rest (i + 1) path st' with
      | .error e' => .error e'
      | .ok (vs, st'') => .ok (v :: vs, st'')

/-- Traversal when the schema is a dict/schema node, shared between the
`items` and no-`items` branches of `Dict.traverse`. -/
def dictTraverse
    (proc : PyVal → PyVal → List Key → Errors → Except PyExc (PyVal × Errors))
    (schemaParent : Bool) (schema : List (String × PyVal)) (data : PyVal)
    (path : List Key) (st : Errors) : Except PyExc (PyVal × Errors) :=
  if containsKey schema "items" then
    match dictGetD schema "items" with
    | .dict items =>
      (match dictItemsGo proc schemaParent items data path st with
       | .error e => .error e
       | .ok (ps, st') => .ok (.dict ps, st'))
    | _ => .error (.attributeError "items")
  else
    match data with
    | .dict kvs =>
      (match dictNoItemsGo proc schemaParent kvs path st with
       | .error e => .error e
       | .ok (ps, st') => .ok (.dict ps, st'))
    | _ => .error (.attributeError "items")

/-- Dispatches `dtype.traverse(data, path, kwargs)`: identity for scalar
plugins and `Any`, the element loop for `List`, the key loops for `Dict`
and `Schema`. -/
def traverseFn
    (proc : PyVal → PyVal → List Key → Errors → Except PyExc (PyVal × Errors))
    (t : Ty) (schema : List (String × PyVal)) (data : PyVal)
    (path : List Key) (st : Errors) : Except PyExc (PyVal × Errors) :=
  match t with
  | .list =>
    (match dictGet schema "items" with
     | Option.none => .error (.keyError "items")
     | some itemsV =>
       (match pyIter itemsV with
        | Option.none => .error (.typeError "cycle argument is not iterable")
        | some its =>
          (match pyIter data with
           | Option.none => .error (.typeError "zip argument is not iterable")
           | some elems =>
             if its.isEmpty then .ok (.list [], st)
             else
               (match listItemsGo proc its elems 0 path st with
                | .error e => .error e
                | .ok (vs, st') => .ok (.list vs, st')))))
  | .dict => dictTraverse proc false schema data path st
  | .schema => dictTraverse proc true schema data path st
  | _ => .ok (data, st)

/-- Lines 276-310 of `Distaff.process` — everything after the two
substitutions, given the already substituted data: inside `try`: coerce
(when casting and not NA), validate, then traverse (when not NA); on a
caught `ValidationError`, append to the frame's `errors` parameter and
bump the shared count; finally raise at the root when `fail` is set and
errors were counted, and apply the `json` transform at the root in json
mode.  `proc` is the nested `self.distaff.process` call. -/
def processCore
    (proc : PyVal → PyVal → List Key → Errors → Except PyExc (PyVal × Errors))
    (t : Ty) (schema : List (String × PyVal)) (data2 : PyVal)
    (output : Output) (cast validate fail : Bool)
    (path : List Key) (errsIsNone : Bool) (st : Errors) :
    Except PyExc (PyVal × Errors) :=
  let isna := isnaFn t data2
  let afterTry : Except PyExc (PyVal × Errors) :=
    match (if cast && !isna then nativeFn t schema data2
        else .ok data2) with
    | .error (.exc e) => .error e
    | .error (.validation msg) => recordErr errsIsNone msg st data2
    | .ok d3 =>
      match (if validate then validateFn t schema d3
          else .ok ()) with
      | .error (.exc e) => .error e
      | .error (.validation msg) => recordErr errsIsNone msg st d3
      | .ok _ =>
        if !isna then
          match traverseFn proc t schema d3 path st with
          | .error (.validationError _ _) =>
            recordErr errsIsNone "" st d3
          | .error e => .error e
          | .ok (d4, st') => .ok (d4, st')
        else .ok (d3, st)
  match afterTry with
  | .error e => .error e
  | .ok (d4, st') =>
    if path.isEmpty && st'.count != 0 && fail then
      .error (.validationError st'.errors st'.count)
    else if !path.isEmpty then .ok (d4, st')
    else
      match output with
      | .native => .ok (d4, st')
      | .json =>
        (match jsonFn t d4 with
         | .error e => .error e
         | .ok j => .ok (j, st'))

/-- One frame of `Distaff.process` (lines 259-310): resolve the plugin from
`schema['type']`, substitute `default` then `fillna`, then run the
post-substitution core `processCore`. -/
def processStep
    (proc : PyVal → PyVal → List Key → Errors → Except PyExc (PyVal × Errors))
    (schemaV data : PyVal) (output : Output) (cast validate fail : Bool)
    (path : List Key) (errsIsNone : Bool) (st : Errors) :
    Except PyExc (PyVal × Errors) :=
  match schemaV with
  | .dict schema =>
    (match dictGet schema "type" with
     | Option.none => .error (.keyError "type")
     | some tv =>
       (match typesKeyLookup tv with
        | .error e => .error e
        | .ok t =>
          processCore proc t schema
            (substFillna t schema (substDefault schema data))
            output cast validate fail path errsIsNone st))
  | _ => .error (.typeError ("value of type " ++ typeOfRepr schemaV ++
      " is not subscriptable by a string key"))

/-- `Distaff.process`, with a fuel bound on recursion depth.  Nested calls
made by `traverse` inherit `output`, `cast` and `validate`, always pass
`fail=False`, and omit `errors` (so nested frames see `errors=None`). -/
def process : Nat → PyVal → PyVal → Output → Bool → Bool → Bool →
    List Key → Bool → Errors → Except PyExc (PyVal × Errors)
  | 0, _, _, _, _, _, _, _, _, _ => .error .fuelExhausted
  | fuel + 1, schemaV, data, output, cast, validate, fail, path,
      errsIsNone, st =>
    processStep
      (fun s d p st' => process fuel s d output cast validate false p true st')
      schemaV data output cast validate fail path errsIsNone st

/-- The `items` mapping of the meta-schema `Distaff._schema`: the four
recognised schema keys and their own schemas. -/
def metaItems : List (String × PyVal) :=
  [("type", .dict [("type", .str "string"), ("required", .bool true)]),
   ("required", .dict [("type", .str "boolean"), ("default", .bool false)]),
   ("choices", .dict [("type", .str "list"),
     ("items", .dict [("type", .str "any")]), ("default", .none)]),
   ("default", .dict [("type", .str "any")])]

/-- The bindings of the meta-schema `Distaff._schema` (a schema describing
schemas), in keyword-argument order. -/
def metaSchemaKvs : List (String × PyVal) :=
  [("type", .str "schema"), ("required", .bool true), ("choices", .none),
   ("items", .dict metaItems)]

/-- The meta-schema `Distaff._schema`. -/
def metaSchema : PyVal := .dict metaSchemaKvs

/-- `Distaff.__init__`: validate the schema document against the meta-schema
with `fail=True` and a fresh shared accumulator; on success the returned
value becomes `self.schema` and the accumulator carries over. -/
def distaffInit (fuel : Nat) (schemaDoc : PyVal) :
    Except PyExc (PyVal × Errors) :=
  process fuel metaSchema schemaDoc .native true true true [] false ⟨[], 0⟩

/-- `Distaff(...).native()`: construct, then process the stored data with
`output='native'`, `cast=True`, `validate=True`, `fail=False`. -/
def distaffNative (fuel : Nat) (schemaDoc data : PyVal) :
    Except PyExc (PyVal × Errors) :=
  match distaffInit fuel schemaDoc with
  | .error e => .error e
  | .ok (validated, st) =>
    process fuel validated data .native true true false [] false st

/-- `Distaff(...).json()`: construct, then process the stored data with
`output='json'`, `cast=False`, `validate=False`, `fail=True`. -/
def distaffJson (fuel : Nat) (schemaDoc data : PyVal) :
    Except PyExc (PyVal × Errors) :=
  match distaffInit fuel schemaDoc with
  | .error e => .error e
  | .ok (validated, st) =>
    process fuel validated data .json false false true [] false st

/-- Type tags whose `traverse` is the inherited identity (`Field.traverse`):
every plugin except the composite `List`, `Dict` and `Schema`. -/
def scalarTraverse : Ty → Bool
  | .list => false
  | .dict => false
  | .schema => false
  | _ => true

/-- Well-formedness a Python runtime guarantees for the embedded values:
a `datetime.date` object always satisfies the constructor constraints
(year 1..9999, valid month, day within the month). -/
def pyDateWF : PyVal → Bool
  | .date y m d => validYMD y m d
  | _ => true

/-- Short name for the preservation property of a nested-call procedure:
on success it returns the accumulator unchanged. -/
def ProcPres
    (proc : PyVal → PyVal → List Key → Errors → Except PyExc (PyVal × Errors)) :
    Prop :=
  ∀ s d p st v st', proc s d p st = .ok (v, st') → st' = st

theorem dictItemsGo_pres
    {proc : PyVal → PyVal → List Key → Errors → Except PyExc (PyVal × Errors)}
    (hp : ProcPres proc) (sp : Bool) (items : List (String × PyVal))
    (data : PyVal) (path : List Key) :
    ∀ st ps st', dictItemsGo proc sp items data path st = .ok (ps, st') →
      st' = st := by
  induction items with
  | nil =>
    intro st ps st' h
    simp only [dictItemsGo, Except.ok.injEq, Prod.mk.injEq] at h
    exact h.2.symm
  | cons kv rest ih =>
    intro st ps st' h
    obtain ⟨k, sub⟩ := kv
    simp only [dictItemsGo] at h
    split at h
    · simp at h
    · split at h
      · simp at h
      · split at h
        · simp at h
        · rename_i v1 st1 hproc
          split at h
          · simp at h
          · rename_i ps0 st2 hrest
            simp only [Except.ok.injEq, Prod.mk.injEq] at h
            have h1 := hp _ _ _ _ _ _ hproc
            have h2 := ih st1 ps0 st2 hrest
            rw [← h.2, h2, h1]

theorem dictNoItemsGo_pres
    {proc : PyVal → PyVal → List Key → Errors → Except PyExc (PyVal × Errors)}
    (hp : ProcPres proc) (sp : Bool) (kvs : List (String × PyVal))
    (path : List Key) :
    ∀ st ps st', dictNoItemsGo proc sp kvs path st = .ok (ps, st') →
      st' = st := by
  induction kvs with
  | nil =>
    intro st ps st' h
    simp only [dictNoItemsGo, Except.ok.injEq, Prod.mk.injEq] at h
    exact h.2.symm
  | cons kv rest ih =>
    intro st ps st' h
    obtain ⟨k, v⟩ := kv
    simp only [dictNoItemsGo] at h
    split at h
    · simp at h
    · split at h
      · simp at h
      · rename_i v1 st1 hproc
        split at h
        · simp at h
        · rename_i ps0 st2 hrest
          simp only [Except.ok.injEq, Prod.mk.injEq] at h
          have h1 := hp _ _ _ _ _ _ hproc
          have h2 := ih st1 ps0 st2 hrest
          rw [← h.2, h2, h1]

theorem listItemsGo_pres
    {proc : PyVal → PyVal → List Key → Errors → Except PyExc (PyVal × Errors)}
    (hp : ProcPres proc) (its : List PyVal) (path : List Key) :
    ∀ elems i st vs st', listItemsGo proc its elems i path st = .ok (vs, st') →
      st' = st := by
  intro elems
  induction elems with
  | nil =>
    intro i st vs st' h
    simp only [listItemsGo, Except.ok.injEq, Prod.mk.injEq] at h
    exact h.2.symm
  | cons e rest ih =>
    intro i st vs st' h
    simp only [listItemsGo] at h
    split at h
    · simp at h
    · rename_i v1 st1 hproc
      split at h
      · simp at h
      · rename_i vs0 st2 hrest
        simp only [Except.ok.injEq, Prod.mk.injEq] at h
        have h1 := hp _ _ _ _ _ _ hproc
        have h2 := ih (i + 1) st1 vs0 st2 hrest
        rw [← h.2, h2, h1]

theorem dictTraverse_pres
    {proc : PyVal → PyVal → List Key → Errors → Except PyExc (PyVal × Errors)}
    (hp : ProcPres proc) (sp : Bool) (schema : List (String × PyVal))
    (data : PyVal) (path : List Key) (st : Errors) (v : PyVal) (st' : Errors)
    (h : dictTraverse proc sp schema data path st = .ok (v, st')) :
    st' = st := by
  simp only [dictTraverse] at h
  split at h
  · split at h
    · split at h
      · simp at h
      · rename_i ps st2 hgo
        simp only [Except.ok.injEq, Prod.mk.injEq] at h
        rw [← h.2]
        exact dictItemsGo_pres hp _ _ _ _ _ _ _ hgo
    · simp at h
  · split at h
    · split at h
      · simp at h
      · rename_i ps st2 hgo
        simp only [Except.ok.injEq, Prod.mk.injEq] at h
        rw [← h.2]
        exact dictNoItemsGo_pres hp _ _ _ _ _ _ hgo
    · simp at h

theorem traverseFn_pres
    {proc : PyVal → PyVal → List Key → Errors → Except PyExc (PyVal × Errors)}
    (hp : ProcPres proc) (t : Ty) (schema : List (String × PyVal))
    (data : PyVal) (path : List Key) (st : Errors) (v : PyVal) (st' : Errors)
    (h : traverseFn proc t schema data path st = .ok (v, st')) :
    st' = st := by
  cases t with
  | list =>
    simp only [traverseFn] at h
    split at h
    · simp at h
    · split at h
      · simp at h
      · split at h
        · simp at h
        · split at h
          · simp only [Except.ok.injEq, Prod.mk.injEq] at h
            exact h.2.symm
          · split at h
            · simp at h
            · rename_i vs st2 hgo
              simp only [Except.ok.injEq, Prod.mk.injEq] at h
              rw [← h.2]
              exact listItemsGo_pres hp _ _ _ _ _ _ _ hgo
  | dict => exact dictTraverse_pres hp _ _ _ _ _ _ _ h
  | schema => exact dictTraverse_pres hp _ _ _ _ _ _ _ h
  | boolean =>
    simp only [traverseFn, Except.ok.injEq, Prod.mk.injEq] at h
    exact h.2.symm
  | integer =>
    simp only [traverseFn, Except.ok.injEq, Prod.mk.injEq] at h
    exact h.2.symm
  | string =>
    simp only [traverseFn, Except.ok.injEq, Prod.mk.injEq] at h
    exact h.2.symm
  | date =>
    simp only [traverseFn, Except.ok.injEq, Prod.mk.injEq] at h
    exact h.2.symm
  | any =>
    simp only [traverseFn, Except.ok.injEq, Prod.mk.injEq] at h
    exact h.2.symm

theorem processCore_pres
    {proc : PyVal → PyVal → List Key → Errors → Except PyExc (PyVal × Errors)}
    (hp : ProcPres proc) (t : Ty) (schema : List (String × PyVal))
    (data2 : PyVal) (output : Output) (cast validate fail : Bool)
    (path : List Key) (st : Errors) (v : PyVal) (st' : Errors)
    (h : processCore proc t schema data2 output cast validate fail path true
      st = .ok (v, st')) : st' = st := by
  simp only [processCore, recordErr, if_true] at h
  split at h
  · simp at h
  · rename_i d4 st2 hafter
    have hst2 : st2 = st := by
      split at hafter
      · simp at hafter
      · simp at hafter
      · split at hafter
        · simp at hafter
        · simp at hafter
        · split at hafter
          · split at hafter
            · simp at hafter
            · simp at hafter
            · rename_i d5 st3 htrav
              simp only [Except.ok.injEq, Prod.mk.injEq] at hafter
              rw [← hafter.2]
              exact traverseFn_pres hp _ _ _ _ _ _ _ htrav
          · simp only [Except.ok.injEq, Prod.mk.injEq] at hafter
            exact hafter.2.symm
    split at h
    · simp at h
    · split at h
      · simp only [Except.ok.injEq, Prod.mk.injEq] at h
        rw [← h.2]; exact hst2
      · split at h
        · simp only [Except.ok.injEq, Prod.mk.injEq] at h
          rw [← h.2]; exact hst2
        · split at h
          · simp at h
          · simp only [Except.ok.injEq, Prod.mk.injEq] at h
            rw [← h.2]; exact hst2

theorem processStep_pres
    {proc : PyVal → PyVal → List Key → Errors → Except PyExc (PyVal × Errors)}
    (hp : ProcPres proc) (schemaV data : PyVal) (output : Output)
    (cast validate fail : Bool) (path : List Key) (st : Errors)
    (v : PyVal) (st' : Errors)
    (h : processStep proc schemaV data output cast validate fail path true
      st = .ok (v, st')) : st' = st := by
  simp only [processStep] at h
  split at h
  · split at h
    · simp at h
    · split at h
      · simp at h
      · exact processCore_pres hp _ _ _ _ _ _ _ _ _ _ _ h
  · simp at h

/-- A `process` frame whose `errors` parameter is `None` — every frame the
traversal spawns — leaves the shared accumulator untouched whenever it
returns: its error handler would crash (`TypeError`) before recording. -/
theorem process_pres : ∀ (fuel : Nat) (s d : PyVal) (out : Output)
    (c vl fl : Bool) (p : List Key) (st : Errors) (r : PyVal) (st' : Errors),
    process fuel s d out c vl fl p true st = .ok (r, st') → st' = st := by
  intro fuel
  induction fuel with
  | zero =>
    intro s d out c vl fl p st r st' h
    simp [process] at h
  | succ n ih =>
    intro s d out c vl fl p st r st' h
    simp only [process] at h
    exact processStep_pres
      (fun s' d' p' st0 v0 st0' hh => ih s' d' out c vl false p' st0 v0 st0' hh)
      _ _ _ _ _ _ _ _ _ _ h

theorem isMissing_iff {d : PyVal} : isMissing d = true ↔ d = .missing := by
  cases d <;> simp [isMissing]

theorem substDefault_of_get {sch : List (String × PyVal)} {d : PyVal}
    (h : dictGet sch "default" = some d) : substDefault sch .missing = d := by
  simp [substDefault, containsKey, dictGetD, h, isMissing]

theorem substDefault_self {sch : List (String × PyVal)} {d : PyVal}
    (h : dictGet sch "default" = some d) : substDefault sch d = d := by
  unfold substDefault
  cases hd : isMissing d
  · simp [hd]
  · have hm := isMissing_iff.mp hd
    subst hm
    simp [containsKey, dictGetD, h]

theorem substDefault_none {sch : List (String × PyVal)} {data : PyVal}
    (h : dictGet sch "default" = Option.none) :
    substDefault sch data = data := by
  simp [substDefault, containsKey, h]

theorem substFillna_none {t : Ty} {sch : List (String × PyVal)} {data : PyVal}
    (h : dictGet sch "fillna" = Option.none) :
    substFillna t sch data = data := by
  simp [substFillna, containsKey, h]

theorem substFillna_of_get {t : Ty} {sch : List (String × PyVal)}
    {data f : PyVal} (h : dictGet sch "fillna" = some f)
    (hna : isnaFn t data = true) : substFillna t sch data = f := by
  simp [substFillna, containsKey, dictGetD, h, hna]

theorem substFillna_self {t : Ty} {sch : List (String × PyVal)} {f : PyVal}
    (h : dictGet sch "fillna" = some f) : substFillna t sch f = f := by
  unfold substFillna
  cases hf : isnaFn t f
  · simp [hf]
  · simp [hf, containsKey, dictGetD, h]

theorem substFillna_not_na {t : Ty} {sch : List (String × PyVal)}
    {data : PyVal} (hna : isnaFn t data = false) :
    substFillna t sch data = data := by
  simp [substFillna, hna]

theorem isnaFn_missing (t : Ty) : isnaFn t .missing = true := by
  cases t <;> rfl

theorem traverseFn_scalar
    {proc : PyVal → PyVal → List Key → Errors → Except PyExc (PyVal × Errors)}
    {t : Ty} (ht : scalarTraverse t = true) (schema : List (String × PyVal))
    (data : PyVal) (path : List Key) (st : Errors) :
    traverseFn proc t schema data path st = .ok (data, st) := by
  cases t <;> first
    | rfl
    | simp [scalarTraverse] at ht

theorem validateFn_missing_required {t : Ty} {sch : List (String × PyVal)}
    (h : dictGet sch "required" = some (.bool true)) :
    validateFn t sch .missing =
      .error (.validation "a value is required") := by
  cases t <;> simp [validateFn, isMissing, isNone, h, pyTruthy]

/-- C4: on every node (any path, any frame), `Distaff.process` substitutes
the schema's `default` for an absent (`MISSING`) value and then the
schema's `fillna` for an NA value, both before any coercion, validation or
traversal: processing `MISSING` under a schema declaring `default = d` is
identical to processing `d` itself, and processing an NA value under a
schema declaring `fillna = f` (and no `default`) is identical to
processing `f` itself. -/
theorem c4_default_then_fillna_before_processing :
    (∀ (fuel : Nat) (sch : List (String × PyVal)) (d : PyVal) (out : Output)
       (c vl fl : Bool) (p : List Key) (e : Bool) (st : Errors),
       dictGet sch "default" = some d →
       process fuel (.dict sch) .missing out c vl fl p e st =
         process fuel (.dict sch) d out c vl fl p e st) ∧
    (∀ (fuel : Nat) (sch : List (String × PyVal)) (tag : String) (t : Ty)
       (f data : PyVal) (out : Output) (c vl fl : Bool) (p : List Key)
       (e : Bool) (st : Errors),
       dictGet sch "type" = some (.str tag) → typesLookup tag = some t →
       dictGet sch "fillna" = some f → isnaFn t data = true →
       dictGet sch "default" = Option.none →
       process fuel (.dict sch) data out c vl fl p e st =
         process fuel (.dict sch) f out c vl fl p e st) := by
  constructor
  · intro fuel sch d out c vl fl p e st hd
    cases fuel with
    | zero => rfl
    | succ n =>
      simp only [process, processStep]
      cases hdt : dictGet sch "type" with
      | none => rfl
      | some tv =>
        cases htk : typesKeyLookup tv with
        | error e' => simp only [htk]
        | ok t =>
          simp only [htk]
          rw [substDefault_of_get hd, substDefault_self hd]
  · intro fuel sch tag t f data out c vl fl p e st hty hlt hf hna hdn
    cases fuel with
    | zero => rfl
    | succ n =>
      simp only [process, processStep, hty, typesKeyLookup, hlt]
      rw [substDefault_none hdn, substDefault_none hdn,
        substFillna_of_get hf hna, substFillna_self hf]

/-- Witness for C4 at a concrete schema: a declared default of 5 is
processed exactly as if it had been supplied, and a declared fillna of 7 is
substituted for an explicit null. -/
theorem c4_default_then_fillna_before_processing_witness :
    (process 1 (.dict [("type", .str "integer"), ("required", .bool false),
        ("choices", .none), ("default", .int 5)]) .missing .native true true
        false [] false ⟨[], 0⟩ =
      process 1 (.dict [("type", .str "integer"), ("required", .bool false),
        ("choices", .none), ("default", .int 5)]) (.int 5) .native true true
        false [] false ⟨[], 0⟩) ∧
    (process 1 (.dict [("type", .str "integer"), ("required", .bool false),
        ("choices", .none), ("fillna", .int 7)]) .none .native true true
        false [] false ⟨[], 0⟩ =
      process 1 (.dict [("type", .str "integer"), ("required", .bool false),
        ("choices", .none), ("fillna", .int 7)]) (.int 7) .native true true
        false [] false ⟨[], 0⟩) :=
  ⟨c4_default_then_fillna_before_processing.1 1 _ _ _ _ _ _ _ _ _ rfl,
   c4_default_then_fillna_before_processing.2 1 _ "integer" .integer _ _ _
     _ _ _ _ _ _ rfl rfl rfl rfl rfl⟩

/-- C5 counterexample: the claim fails as stated.  The schema
`{type: integer, required: True, default: None}` declares a default, yet
processing an absent input yields the default `None` together with ONE
accumulated error (`"a value is required"`), not zero: the default is
substituted first, but a NA default does not exempt the field from the
required check. -/
theorem c5_counterexample_na_default :
    process 1 (.dict [("type", .str "integer"), ("required", .bool true),
        ("choices", .none), ("default", .none)]) .missing .native true true
        false [] false ⟨[], 0⟩ =
      .ok (.none, ⟨["a value is required"], 1⟩) ∧
    (Errors.mk ["a value is required"] 1).count ≠ 0 :=
  ⟨rfl, by simp⟩

/-- C5 amended: for every scalar-traversal schema node (type boolean,
integer, string, date or any) whose declared default is non-NA, coerces to
itself and passes validation, processing an absent input in native mode
yields the default with the accumulator unchanged (zero new errors), even
when the schema also declares `required=true` (no hypothesis restricts
`required`). -/
theorem c5_default_supersedes_required_amended :
    ∀ (fuel : Nat) (sch : List (String × PyVal)) (tag : String) (t : Ty)
      (d : PyVal) (p : List Key) (e : Bool) (st : Errors),
      dictGet sch "type" = some (.str tag) → typesLookup tag = some t →
      scalarTraverse t = true →
      dictGet sch "default" = some d → isnaFn t d = false →
      nativeFn t sch d = .ok d → validateFn t sch d = .ok () →
      process (fuel + 1) (.dict sch) .missing .native true true false p e
        st = .ok (d, st) := by
  intro fuel sch tag t d p e st hty hlt hsc hd hna hnat hval
  simp only [process, processStep, hty, typesKeyLookup, hlt]
  rw [substDefault_of_get hd, substFillna_not_na hna]
  simp only [processCore, hna, Bool.not_false, Bool.and_true, hnat, hval,
    if_true, traverseFn_scalar hsc]
  cases p <;> simp

/-- Witness for the amended C5: `{type: integer, required: True,
default: 42}` processed on an absent input yields 42 with no error. -/
theorem c5_default_supersedes_required_amended_witness :
    process 1 (.dict [("type", .str "integer"), ("required", .bool true),
        ("choices", .none), ("default", .int 42)]) .missing .native true true
        false [] false ⟨[], 0⟩ = .ok (.int 42, ⟨[], 0⟩) :=
  c5_default_supersedes_required_amended 0 _ "integer" .integer _ _ _ _
    rfl rfl rfl rfl rfl rfl rfl

/-- C6 counterexample: the claim fails as stated.  The schema
`{type: integer, required: True, fillna: 7}` has `required=true` and no
`default`, yet processing an absent input yields 7 with an EMPTY error
list — the `fillna` substitution runs on the absent marker before the
required check, so no `"a value is required"` error is recorded. -/
theorem c6_counterexample_fillna :
    process 1 (.dict [("type", .str "integer"), ("required", .bool true),
        ("choices", .none), ("fillna", .int 7)]) .missing .native true true
        false [] false ⟨[], 0⟩ = .ok (.int 7, ⟨[], 0⟩) ∧
    (Errors.mk [] 0).errors ≠ ["a value is required"] :=
  ⟨rfl, by simp⟩

/-- C6 amended: for every schema node with a registered type tag,
`required=true` and neither `default` nor `fillna`, processing an absent
input in native mode (with the shared accumulator attached, `fail=False`)
returns without crashing and appends exactly one error, with message
`"a value is required"`, to the accumulator. -/
theorem c6_required_missing_amended :
    ∀ (fuel : Nat) (sch : List (String × PyVal)) (tag : String) (t : Ty)
      (p : List Key) (st : Errors),
      dictGet sch "type" = some (.str tag) → typesLookup tag = some t →
      dictGet sch "default" = Option.none →
      dictGet sch "fillna" = Option.none →
      dictGet sch "required" = some (.bool true) →
      process (fuel + 1) (.dict sch) .missing .native true true false p
        false st =
        .ok (.missing, ⟨st.errors ++ ["a value is required"],
          st.count + 1⟩) := by
  intro fuel sch tag t p st hty hlt hdn hfn hreq
  simp only [process, processStep, hty, typesKeyLookup, hlt]
  rw [substDefault_none hdn, substFillna_none hfn]
  simp only [processCore, isnaFn_missing, Bool.not_true, Bool.and_false,
    if_false, recordErr, if_true]
  cases p <;> simp [validateFn_missing_required hreq]

theorem c6_required_missing_amended_witness :
    process 1 (.dict [("type", .str "integer"), ("required", .bool true),
        ("choices", .none)]) .missing .native true true false [] false
        ⟨[], 0⟩ = .ok (.missing, ⟨["a value is required"], 1⟩) :=
  c6_required_missing_amended 0 _ "integer" .integer [] ⟨[], 0⟩
    rfl rfl rfl rfl rfl

theorem parseDigit_digitChar {k : Nat} (hk : k < 10) :
    parseDigit (digitChar k) = some k := by
  interval_cases k <;> rfl

theorem daysInMonth_le (y m : Nat) : daysInMonth y m ≤ 31 := by
  unfold daysInMonth
  split_ifs <;> omega

theorem parseYMD_valid {cs : List Char} {y m d : Nat}
    (h : parseYMD cs = some (y, m, d)) : validYMD y m d = true := by
  unfold parseYMD at h
  split at h
  · split at h
    · split at h
      · split at h
        · dsimp only at h
          split at h
          · rename_i hv
            simp only [Option.some.injEq, Prod.mk.injEq] at h
            obtain ⟨h1, h2, h3⟩ := h
            subst h1; subst h2; subst h3
            exact hv
          · simp at h
        · simp at h
      · simp at h
    · simp at h
  · simp at h

theorem parseYMD_formatDate {y m d : Nat} (h : validYMD y m d = true) :
    parseYMD (formatDate y m d).data = some (y, m, d) := by
  have hb : (1 ≤ y ∧ y ≤ 9999) ∧ (1 ≤ m ∧ m ≤ 12) ∧ 1 ≤ d ∧
      d ≤ daysInMonth y m := by
    simp only [validYMD, Bool.and_eq_true, decide_eq_true_eq] at h
    tauto
  have hdm := daysInMonth_le y m
  obtain ⟨⟨hy1, hy2⟩, ⟨hm1, hm2⟩, hd1, hd2⟩ := hb
  have e1 : y / 1000 < 10 := by omega
  have e2 : y / 100 % 10 < 10 := by omega
  have e3 : y / 10 % 10 < 10 := by omega
  have e4 : y % 10 < 10 := by omega
  have e5 : m / 10 < 10 := by omega
  have e6 : m % 10 < 10 := by omega
  have e7 : d / 10 < 10 := by omega
  have e8 : d % 10 < 10 := by omega
  simp only [formatDate, parseYMD, parse2, parseDigit_digitChar e1,
    parseDigit_digitChar e2, parseDigit_digitChar e3, parseDigit_digitChar e4,
    parseDigit_digitChar e5, parseDigit_digitChar e6, parseDigit_digitChar e7,
    parseDigit_digitChar e8]
  have a1 : ((y / 1000 * 10 + y / 100 % 10) * 10 + y / 10 % 10) * 10 +
      y % 10 = y := by omega
  have a2 : m / 10 * 10 + m % 10 = m := by omega
  have a3 : d / 10 * 10 + d % 10 = d := by omega
  rw [a1, a2, a3]
  simp [h]

theorem nativeFn_date_str (s : String) :
    nativeFn .date [] (.str s) =
      match parseYMD s.data with
      | some (y, m, d) => .ok (.date y m d)
      | Option.none => fieldNative .date (.str s) := by
  have hit : pyIter ((dictGet ([] : List (String × PyVal))
      "format").getD (.list [.str "%Y-%m-%d"])) =
      some [.str "%Y-%m-%d"] := rfl
  cases hpp : parseYMD s.data with
  | none => simp [nativeFn, hit, dateTryFormats, strptimeModel, hpp]
  | some ymd =>
    obtain ⟨y, m, d⟩ := ymd
    simp [nativeFn, hit, dateTryFormats, strptimeModel, hpp]

/-- C8: for the integer, boolean, string and date plugins under the default
configuration (no schema overrides; the boolean token lists and the date
format are the class defaults), any value accepted by coercion round-trips:
serializing the coerced value and re-coercing the serialized form yields
the same native value.  The `pyDateWF` hypothesis states the invariant
Python guarantees at runtime, namely that `datetime.date` objects hold a
valid calendar date. -/
theorem c8_coerce_json_roundtrip :
    ∀ (t : Ty), (t = .integer ∨ t = .boolean ∨ t = .string ∨ t = .date) →
    ∀ (x v : PyVal), pyDateWF x = true → nativeFn t [] x = .ok v →
    ∃ w, jsonFn t v = .ok w ∧ nativeFn t [] w = .ok v := by
  intro t ht x v hwf hx
  rcases ht with rfl | rfl | rfl | rfl
  · cases x with
    | str s =>
      simp only [nativeFn] at hx
      split at hx
      · rename_i n hpi
        simp only [Except.ok.injEq] at hx
        subst hx
        exact ⟨.int n, rfl, rfl⟩
      · simp at hx
    | int n =>
      simp only [nativeFn, fieldNative, isinstanceNative, if_true,
        Except.ok.injEq] at hx
      subst hx
      exact ⟨.int n, rfl, rfl⟩
    | bool b =>
      simp only [nativeFn, fieldNative, isinstanceNative, if_true,
        Except.ok.injEq] at hx
      subst hx
      exact ⟨.bool b, rfl, rfl⟩
    | missing => simp [nativeFn, fieldNative, isinstanceNative] at hx
    | none => simp [nativeFn, fieldNative, isinstanceNative] at hx
    | date y m d => simp [nativeFn, fieldNative, isinstanceNative] at hx
    | list xs => simp [nativeFn, fieldNative, isinstanceNative] at hx
    | dict kvs => simp [nativeFn, fieldNative, isinstanceNative] at hx
  · cases x with
    | str s =>
      simp only [nativeFn] at hx
      split at hx
      · simp only [Except.ok.injEq] at hx
        subst hx
        exact ⟨.bool false, rfl, rfl⟩
      · split at hx
        · simp only [Except.ok.injEq] at hx
          subst hx
          exact ⟨.bool true, rfl, rfl⟩
        · simp at hx
    | bool b =>
      simp only [nativeFn, fieldNative, isinstanceNative, if_true,
        Except.ok.injEq] at hx
      subst hx
      exact ⟨.bool b, rfl, rfl⟩
    | missing => simp [nativeFn, fieldNative, isinstanceNative] at hx
    | none => simp [nativeFn, fieldNative, isinstanceNative] at hx
    | int n => simp [nativeFn, fieldNative, isinstanceNative] at hx
    | date y m d => simp [nativeFn, fieldNative, isinstanceNative] at hx
    | list xs => simp [nativeFn, fieldNative, isinstanceNative] at hx
    | dict kvs => simp [nativeFn, fieldNative, isinstanceNative] at hx
  · cases x with
    | str s =>
      simp only [nativeFn, fieldNative, isinstanceNative, if_true,
        Except.ok.injEq] at hx
      subst hx
      exact ⟨.str s, rfl, rfl⟩
    | int n =>
      simp only [nativeFn, Except.ok.injEq] at hx
      subst hx
      exact ⟨.str (toString n), rfl, rfl⟩
    | bool b =>
      simp only [nativeFn, Except.ok.injEq] at hx
      subst hx
      exact ⟨.str (if b then "True" else "False"), rfl, rfl⟩
    | missing => simp [nativeFn, fieldNative, isinstanceNative] at hx
    | none => simp [nativeFn, fieldNative, isinstanceNative] at hx
    | date y m d => simp [nativeFn, fieldNative, isinstanceNative] at hx
    | list xs => simp [nativeFn, fieldNative, isinstanceNative] at hx
    | dict kvs => simp [nativeFn, fieldNative, isinstanceNative] at hx
  · cases x with
    | str s =>
      rw [nativeFn_date_str] at hx
      split at hx
      · rename_i y m d hpp
        simp only [Except.ok.injEq] at hx
        subst hx
        have hv := parseYMD_valid hpp
        refine ⟨.str (formatDate y m d), rfl, ?_⟩
        rw [nativeFn_date_str, parseYMD_formatDate hv]
      · simp [fieldNative, isinstanceNative] at hx
    | date y m d =>
      simp only [nativeFn, fieldNative, isinstanceNative, if_true,
        Except.ok.injEq] at hx
      subst hx
      simp only [pyDateWF] at hwf
      refine ⟨.str (formatDate y m d), rfl, ?_⟩
      rw [nativeFn_date_str, parseYMD_formatDate hwf]
    | missing => simp [nativeFn, fieldNative, isinstanceNative] at hx
    | none => simp [nativeFn, fieldNative, isinstanceNative] at hx
    | int n => simp [nativeFn, fieldNative, isinstanceNative] at hx
    | bool b => simp [nativeFn, fieldNative, isinstanceNative] at hx
    | list xs => simp [nativeFn, fieldNative, isinstanceNative] at hx
    | dict kvs => simp [nativeFn, fieldNative, isinstanceNative] at hx

/-- Witness for C8 at concrete inputs of each of the four plugins. -/
theorem c8_coerce_json_roundtrip_witness :
    (∃ w, jsonFn .integer (.int 7) = .ok w ∧
      nativeFn .integer [] w = .ok (.int 7)) ∧
    (∃ w, jsonFn .boolean (.bool false) = .ok w ∧
      nativeFn .boolean [] w = .ok (.bool false)) ∧
    (∃ w, jsonFn .string (.str "True") = .ok w ∧
      nativeFn .string [] w = .ok (.str "True")) ∧
    (∃ w, jsonFn .date (.date 2016 1 1) = .ok w ∧
      nativeFn .date [] w = .ok (.date 2016 1 1)) :=
  ⟨c8_coerce_json_roundtrip .integer (Or.inl rfl) (.str "7") (.int 7)
      rfl rfl,
   c8_coerce_json_roundtrip .boolean (Or.inr (Or.inl rfl)) (.str "off")
      (.bool false) rfl rfl,
   c8_coerce_json_roundtrip .string (Or.inr (Or.inr (Or.inl rfl)))
      (.bool true) (.str "True") rfl rfl,
   c8_coerce_json_roundtrip .date (Or.inr (Or.inr (Or.inr rfl)))
      (.str "2016-01-01") (.date 2016 1 1) rfl rfl⟩

theorem validateFn_na_required {t : Ty} {sch : List (String × PyVal)}
    {v : PyVal} (ht : t ≠ .any) (hna : (isNone v || isMissing v) = true)
    (hreq : dictGet sch "required" = some (.bool true)) :
    validateFn t sch v = .error (.validation "a value is required") := by
  cases t <;> simp [validateFn, hna, hreq, pyTruthy] <;> simp at ht

theorem dictItemsGo_spec
    {proc : PyVal → PyVal → List Key → Errors → Except PyExc (PyVal × Errors)}
    (hp : ProcPres proc) (sp : Bool) (data : PyVal) (path : List Key) :
    ∀ (items : List (String × PyVal)) (st : Errors)
      (ps : List (String × PyVal)) (st' : Errors),
      dictItemsGo proc sp items data path st = .ok (ps, st') →
      st' = st ∧ List.Forall₂ (fun it pr =>
        pr.1 = it.1 ∧ ∃ sub' dval,
          (if sp then schemaSetdefaults it.2 else .ok it.2) = .ok sub' ∧
          pyGetMethod data it.1 = .ok dval ∧
          proc sub' dval (path ++ [.s it.1]) st = .ok (pr.2, st))
        items ps := by
  intro items
  induction items with
  | nil =>
    intro st ps st' h
    simp only [dictItemsGo, Except.ok.injEq, Prod.mk.injEq] at h
    exact ⟨h.2.symm, h.1 ▸ List.Forall₂.nil⟩
  | cons kv rest ih =>
    intro st ps st' h
    obtain ⟨k, sub⟩ := kv
    simp only [dictItemsGo] at h
    split at h
    · simp at h
    · rename_i sub' hsd
      split at h
      · simp at h
      · rename_i dval hget
        split at h
        · simp at h
        · rename_i v1 st1 hproc
          split at h
          · simp at h
          · rename_i ps0 st2 hrest
            have e1 := hp _ _ _ _ _ _ hproc
            subst e1
            obtain ⟨e2, hmore⟩ := ih st1 ps0 st2 hrest
            simp only [Except.ok.injEq, Prod.mk.injEq] at h
            refine ⟨by rw [← h.2, e2], ?_⟩
            rw [← h.1]
            exact List.Forall₂.cons ⟨rfl, sub', dval, hsd, hget, hproc⟩ hmore

theorem metaItemsGo_shape
    {proc : PyVal → PyVal → List Key → Errors → Except PyExc (PyVal × Errors)}
    (hp : ProcPres proc) (data : PyVal) (st : Errors)
    (ps : List (String × PyVal)) (st' : Errors)
    (h : dictItemsGo proc true metaItems data [] st = .ok (ps, st')) :
    st' = st ∧ ∃ a b c d, ps =
      [("type", a), ("required", b), ("choices", c), ("default", d)] := by
  obtain ⟨hst, hf⟩ := dictItemsGo_spec hp true data [] metaItems st ps st' h
  refine ⟨hst, ?_⟩
  simp only [metaItems] at hf
  obtain ⟨⟨k1, v1⟩, ps1, ⟨hk1, -⟩, hf, hps0⟩ :=
    List.forall₂_cons_left_iff.mp hf
  obtain ⟨⟨k2, v2⟩, ps2, ⟨hk2, -⟩, hf, hps1⟩ :=
    List.forall₂_cons_left_iff.mp hf
  obtain ⟨⟨k3, v3⟩, ps3, ⟨hk3, -⟩, hf, hps2⟩ :=
    List.forall₂_cons_left_iff.mp hf
  obtain ⟨⟨k4, v4⟩, ps4, ⟨hk4, -⟩, hf, hps3⟩ :=
    List.forall₂_cons_left_iff.mp hf
  have hnil := List.forall₂_nil_left_iff.mp hf
  simp only at hk1 hk2 hk3 hk4
  refine ⟨v1, v2, v3, v4, ?_⟩
  rw [hps0, hps1, hps2, hps3, hnil, hk1, hk2, hk3, hk4]

/-- C3: every schema document the `Distaff` constructor accepts is rebuilt
by the meta-schema traversal as a dict with exactly the four keys `type`,
`required`, `choices`, `default`, in that order; every other key of the
input document (`items`, `fillna`, plugin-specific options) is absent from
the validated schema, so nested item schemas and option overrides never
survive construction. -/
theorem c3_validated_schema_exact_keys :
    ∀ (fuel : Nat) (doc v : PyVal) (st' : Errors),
      distaffInit fuel doc = .ok (v, st') →
      ∃ a b c d, v = .dict [("type", a), ("required", b), ("choices", c),
        ("default", d)] := by
  intro fuel doc v st' h
  cases fuel with
  | zero => simp [distaffInit, process] at h
  | succ n =>
    have hp : ProcPres
        (fun s d p st0 => process n s d .native true true false p true st0) :=
      fun s d p st0 v0 st0' hh =>
        process_pres n s d .native true true false p st0 v0 st0' hh
    have hstep : distaffInit (n + 1) doc =
        processCore
          (fun s d p st0 => process n s d .native true true false p true st0)
          .schema metaSchemaKvs doc .native true true true [] false
          ⟨[], 0⟩ := rfl
    rw [hstep] at h
    simp only [processCore] at h
    cases hna : isnaFn .schema doc with
    | true =>
      have hna' : (isNone doc || isMissing doc) = true := hna
      have hreq : dictGet metaSchemaKvs "required" = some (.bool true) := rfl
      simp only [hna] at h
      simp [validateFn_na_required
        (show (Ty.schema : Ty) ≠ .any by simp) hna' hreq, recordErr] at h
    | false =>
      simp only [hna, Bool.not_false, Bool.and_true, if_true,
        Bool.not_true] at h
      cases doc with
      | missing => simp [isnaFn, isMissing] at hna
      | none => simp [isnaFn, isNone] at hna
      | bool b =>
        simp [nativeFn, fieldNative, isinstanceNative, recordErr] at h
      | int i =>
        simp [nativeFn, fieldNative, isinstanceNative, recordErr] at h
      | str s =>
        simp [nativeFn, fieldNative, isinstanceNative, recordErr] at h
      | date y m d =>
        simp [nativeFn, fieldNative, isinstanceNative, recordErr] at h
      | list xs =>
        simp [nativeFn, fieldNative, isinstanceNative, recordErr] at h
      | dict kvs =>
        have hnat : nativeFn .schema metaSchemaKvs (.dict kvs) =
            .ok (.dict kvs) := rfl
        have hval : validateFn .schema metaSchemaKvs (.dict kvs) =
            .ok () := rfl
        rw [hnat] at h
        dsimp only at h
        rw [hval] at h
        dsimp only at h
        have htr : traverseFn
            (fun s d p st0 => process n s d .native true true false p true st0)
            .schema metaSchemaKvs (.dict kvs) [] ⟨[], 0⟩ =
            match dictItemsGo
              (fun s d p st0 =>
                process n s d .native true true false p true st0)
              true metaItems (.dict kvs) [] ⟨[], 0⟩ with
            | .error e => .error e
            | .ok (ps, st2) => .ok (.dict ps, st2) := rfl
        rw [htr] at h
        cases hgo : dictItemsGo
            (fun s d p st0 => process n s d .native true true false p true st0)
            true metaItems (.dict kvs) [] ⟨[], 0⟩ with
        | error e => rw [hgo] at h; cases e <;> simp [recordErr] at h
        | ok pr =>
          obtain ⟨ps, st2⟩ := pr
          rw [hgo] at h
          obtain ⟨hst2, a, b, c, d, hshape⟩ :=
            metaItemsGo_shape hp (.dict kvs) ⟨[], 0⟩ ps st2 hgo
          subst hst2
          simp only [List.isEmpty, Except.ok.injEq, Prod.mk.injEq] at h
          simp at h
          exact ⟨a, b, c, d, by rw [← h.1, hshape]⟩

/-- Witness for C3: validating the document `{type: integer}` yields a dict
with exactly the four recognised keys. -/
theorem c3_validated_schema_exact_keys_witness :
    ∃ a b c d, (PyVal.dict [("type", .str "integer"),
        ("required", .bool false), ("choices", .none),
        ("default", .missing)]) =
      PyVal.dict [("type", a), ("required", b), ("choices", c),
        ("default", d)] :=
  c3_validated_schema_exact_keys 6 (.dict [("type", .str "integer")])
    (.dict [("type", .str "integer"), ("required", .bool false),
      ("choices", .none), ("default", .missing)]) ⟨[], 0⟩ rfl

theorem substDefault_not_missing {sch : List (String × PyVal)} {data : PyVal}
    (h : isMissing data = false) : substDefault sch data = data := by
  simp [substDefault, h]

theorem validateFn_dict_choices_none {sch kvs}
    (hch : dictGet sch "choices" = some PyVal.none) :
    validateFn .dict sch (.dict kvs) = .ok () := by
  simp [validateFn, isNone, isMissing, isinstanceNative, hch, pyTruthy]

theorem dateTryFormats_err {fmts : List PyVal} {s : String} {er : VErr}
    (h : dateTryFormats fmts s = .error er) :
    er = .exc (.typeError "strptime() argument 1 must be str") := by
  induction fmts with
  | nil => simp [dateTryFormats] at h
  | cons fmt rest ih =>
    simp only [dateTryFormats] at h
    cases fmt with
    | str f =>
      cases hsm : strptimeModel f s with
      | none => simp only [hsm] at h; exact ih h
      | some ymd => simp only [hsm] at h; simp at h
    | missing => simp only [Except.error.injEq] at h; exact h.symm
    | none => simp only [Except.error.injEq] at h; exact h.symm
    | bool b => simp only [Except.error.injEq] at h; exact h.symm
    | int n => simp only [Except.error.injEq] at h; exact h.symm
    | date y m d => simp only [Except.error.injEq] at h; exact h.symm
    | list xs => simp only [Except.error.injEq] at h; exact h.symm
    | dict kvs => simp only [Except.error.injEq] at h; exact h.symm

theorem nativeFn_no_ve (t : Ty) (sch : List (String × PyVal)) (v : PyVal)
    (es : List String) (cnt : Nat) :
    nativeFn t sch v ≠ .error (.exc (.validationError es cnt)) := by
  intro h
  cases t <;> cases v <;>
    simp only [nativeFn, fieldNative, isinstanceNative, if_true,
      if_false] at h
  all_goals try simp at h
  case boolean.str => split_ifs at h <;> simp at h
  case integer.str => split at h <;> simp at h
  case date.str =>
    split at h
    · simp at h
    · split at h
      · rename_i her
        simp only [Except.error.injEq] at h
        subst h
        exact absurd (dateTryFormats_err her) (by simp)
      · simp at h
      · simp [fieldNative, isinstanceNative] at h

theorem pyContains_no_ve (c x : PyVal) (es : List String) (cnt : Nat) :
    pyContains c x ≠ .error (.validationError es cnt) := by
  intro h
  cases c <;> simp [pyContains] at h <;> cases x <;> simp_all

theorem validateFn_no_ve (t : Ty) (sch : List (String × PyVal)) (v : PyVal)
    (es : List String) (cnt : Nat) :
    validateFn t sch v ≠ .error (.exc (.validationError es cnt)) := by
  intro h
  cases t <;> simp only [validateFn] at h
  case any => split_ifs at h <;> simp at h
  all_goals (
    split_ifs at h
    · split at h
      · simp at h
      · split_ifs at h <;> simp at h
    · simp at h
    · split at h
      · simp at h
      · split_ifs at h
        split at h
        · rename_i e0 heq
          simp only [Except.error.injEq, VErr.exc.injEq] at h
          subst h
          exact pyContains_no_ve _ _ _ _ heq
        · simp at h
        · simp at h)

theorem jsonFn_no_ve (t : Ty) (v : PyVal) (es : List String) (cnt : Nat) :
    jsonFn t v ≠ .error (.validationError es cnt) := by
  intro h
  cases t <;> cases v <;> simp [jsonFn] at h

/-- Shorthand: a nested-call procedure never raises a `ValidationError`
out of itself (nested frames always run with `fail=False`). -/
def ProcNoVE
    (proc : PyVal → PyVal → List Key → Errors → Except PyExc (PyVal × Errors)) :
    Prop :=
  ∀ s d p st es cnt, proc s d p st ≠ .error (.validationError es cnt)

theorem dictItemsGo_no_ve
    {proc : PyVal → PyVal → List Key → Errors → Except PyExc (PyVal × Errors)}
    (hnv : ProcNoVE proc) (sp : Bool) (items : List (String × PyVal))
    (data : PyVal) (path : List Key) :
    ∀ st es cnt, dictItemsGo proc sp items data path st ≠
      .error (.validationError es cnt) := by
  induction items with
  | nil => intro st es cnt h; simp [dictItemsGo] at h
  | cons kv rest ih =>
    intro st es cnt h
    obtain ⟨k, sub⟩ := kv
    simp only [dictItemsGo] at h
    split at h
    · rename_i e0 hsd
      simp only [Except.error.injEq] at h
      subst h
      cases sp with
      | false => simp at hsd
      | true =>
        simp only [if_true] at hsd
        cases sub <;> simp [schemaSetdefaults] at hsd
    · split at h
      · rename_i e0 hget
        simp only [Except.error.injEq] at h
        subst h
        cases data <;> simp [pyGetMethod] at hget
      · split at h
        · rename_i e0 hproc
          simp only [Except.error.injEq] at h
          subst h
          exact hnv _ _ _ _ _ _ hproc
        · split at h
          · rename_i e0 hrest
            simp only [Except.error.injEq] at h
            subst h
            exact ih _ _ _ hrest
          · simp at h

theorem dictNoItemsGo_no_ve
    {proc : PyVal → PyVal → List Key → Errors → Except PyExc (PyVal × Errors)}
    (hnv : ProcNoVE proc) (sp : Bool) (kvs : List (String × PyVal))
    (path : List Key) :
    ∀ st es cnt, dictNoItemsGo proc sp kvs path st ≠
      .error (.validationError es cnt) := by
  induction kvs with
  | nil => intro st es cnt h; simp [dictNoItemsGo] at h
  | cons kv rest ih =>
    intro st es cnt h
    obtain ⟨k, v⟩ := kv
    simp only [dictNoItemsGo] at h
    split at h
    · rename_i e0 hsd
      simp only [Except.error.injEq] at h
      subst h
      cases sp <;> simp [schemaSetdefaults] at hsd
    · split at h
      · rename_i e0 hproc
        simp only [Except.error.injEq] at h
        subst h
        exact hnv _ _ _ _ _ _ hproc
      · split at h
        · rename_i e0 hrest
          simp only [Except.error.injEq] at h
          subst h
          exact ih _ _ _ hrest
        · simp at h

theorem listItemsGo_no_ve
    {proc : PyVal → PyVal → List Key → Errors → Except PyExc (PyVal × Errors)}
    (hnv : ProcNoVE proc) (its : List PyVal) (path : List Key) :
    ∀ elems i st es cnt, listItemsGo proc its elems i path st ≠
      .error (.validationError es cnt) := by
  intro elems
  induction elems with
  | nil => intro i st es cnt h; simp [listItemsGo] at h
  | cons e0 rest ih =>
    intro i st es cnt h
    simp only [listItemsGo] at h
    split at h
    · rename_i e1 hproc
      simp only [Except.error.injEq] at h
      subst h
      exact hnv _ _ _ _ _ _ hproc
    · split at h
      · rename_i e1 hrest
        simp only [Except.error.injEq] at h
        subst h
        exact ih _ _ _ _ hrest
      · simp at h

theorem traverseFn_no_ve
    {proc : PyVal → PyVal → List Key → Errors → Except PyExc (PyVal × Errors)}
    (hnv : ProcNoVE proc) (t : Ty) (schema : List (String × PyVal))
    (data : PyVal) (path : List Key) (st : Errors) (es : List String)
    (cnt : Nat) :
    traverseFn proc t schema data path st ≠
      .error (.validationError es cnt) := by
  intro h
  have hdict : ∀ sp, dictTraverse proc sp schema data path st =
      .error (.validationError es cnt) → False := by
    intro sp hD
    simp only [dictTraverse] at hD
    split at hD
    · split at hD
      · split at hD
        · rename_i e1 hgo
          simp only [Except.error.injEq] at hD
          subst hD
          exact dictItemsGo_no_ve hnv _ _ _ _ _ _ _ hgo
        · simp at hD
      · simp at hD
    · split at hD
      · split at hD
        · rename_i e1 hgo
          simp only [Except.error.injEq] at hD
          subst hD
          exact dictNoItemsGo_no_ve hnv _ _ _ _ _ _ hgo
        · simp at hD
      · simp at hD
  cases t <;> simp only [traverseFn] at h
  case dict => exact hdict false h
  case schema => exact hdict true h
  case boolean => simp at h
  case integer => simp at h
  case string => simp at h
  case date => simp at h
  case any => simp at h
  case list =>
    split at h
    · simp at h
    · split at h
      · simp at h
      · split at h
        · simp at h
        · split at h
          · simp at h
          · split at h
            · rename_i e1 hgo
              simp only [Except.error.injEq] at h
              subst h
              exact listItemsGo_no_ve hnv _ _ _ _ _ _ _ hgo
            · simp at h

theorem processCore_no_ve
    {proc : PyVal → PyVal → List Key → Errors → Except PyExc (PyVal × Errors)}
    (hnv : ProcNoVE proc) (t : Ty) (schema : List (String × PyVal))
    (data2 : PyVal) (output : Output) (cast validate : Bool)
    (path : List Key) (eo : Bool) (st : Errors) (es : List String)
    (cnt : Nat) :
    processCore proc t schema data2 output cast validate false path eo st ≠
      .error (.validationError es cnt) := by
  intro h
  simp only [processCore, recordErr] at h
  split at h
  · rename_i e1 hafter
    simp only [Except.error.injEq] at h
    subst h
    split at hafter
    · rename_i e2 hnat
      simp only [Except.error.injEq] at hafter
      subst hafter
      split_ifs at hnat
      · exact nativeFn_no_ve _ _ _ _ _ hnat
    · split_ifs at hafter <;> simp at hafter
    · split at hafter
      · rename_i e2 hval
        simp only [Except.error.injEq] at hafter
        subst hafter
        split_ifs at hval
        · exact validateFn_no_ve _ _ _ _ _ hval
      · split_ifs at hafter <;> simp at hafter
      · split at hafter
        · split at hafter
          · split_ifs at hafter <;> simp at hafter
          · rename_i e2 htrv
            simp only [Except.error.injEq] at hafter
            subst hafter
            exact traverseFn_no_ve hnv _ _ _ _ _ _ _ htrv
          · simp at hafter
        · simp at hafter
  · rename_i d4 st2 hafter
    simp only [Bool.and_false, Bool.false_eq_true, if_false] at h
    split_ifs at h
    all_goals try simp at h
    all_goals (
      split at h
      · simp at h
      · split at h
        · rename_i e1 hjs
          simp only [Except.error.injEq] at h
          subst h
          exact jsonFn_no_ve _ _ _ _ hjs
        · simp at h)

theorem typesKeyLookup_no_ve (tv : PyVal) (es : List String) (cnt : Nat) :
    typesKeyLookup tv ≠ .error (.validationError es cnt) := by
  intro h
  cases tv <;> simp [typesKeyLookup] at h
  split at h <;> simp at h

theorem process_no_ve : ∀ (fuel : Nat) (s d : PyVal) (out : Output)
    (c vl : Bool) (p : List Key) (eo : Bool) (st : Errors)
    (es : List String) (cnt : Nat),
    process fuel s d out c vl false p eo st ≠
      .error (.validationError es cnt) := by
  intro fuel
  induction fuel with
  | zero => intro s d out c vl p eo st es cnt h; simp [process] at h
  | succ n ih =>
    intro s d out c vl p eo st es cnt h
    simp only [process, processStep] at h
    split at h
    · split at h
      · simp at h
      · split at h
        · rename_i htk
          simp only [Except.error.injEq] at h
          subst h
          exact typesKeyLookup_no_ve _ _ _ htk
        · exact processCore_no_ve
            (fun s0 d0 p0 st0 es0 cnt0 hh =>
              ih s0 d0 out c vl p0 true st0 es0 cnt0 hh)
            _ _ _ _ _ _ _ _ _ _ _ h
    · simp at h

/-- C10 counterexample: the claim fails as stated.  Under the dict schema
`{type: dict, items: {a: {type: integer, required: True}}}` and the empty
input dict, the declared key `a` is processed as absent and fails its
required check, but instead of an error being recorded under `items[a]` the
whole call crashes with a `TypeError`: the nested frame's `errors`
parameter is `None`, so the missing declared key never "receives" a
required-error. -/
theorem c10_counterexample_required_child_crash :
    process 3 (.dict [("type", .str "dict"), ("required", .bool false),
        ("choices", .none),
        ("items", .dict [("a", .dict [("type", .str "integer"),
          ("required", .bool true), ("choices", .none)])])])
      (.dict []) .native true true false [] false ⟨[], 0⟩ =
      .error (.typeError "'NoneType' object is not subscriptable") := rfl

/-- C10 amended: for every dict schema declaring an `items` mapping (with
the `choices` option set to None, as validated schemas have), whenever
processing a dict input returns at all, the result is a dict whose keys are
exactly the declared item keys in declaration order — input keys not named
in `items` are silently omitted and produce no accumulated error (the
accumulator comes back unchanged) — and each declared key is processed
against `value.get(key, MISSING)`, so keys missing from the input are
processed as the absent marker (receiving defaults per their own schema;
a failing child does not record an error but crashes the call, per the
counterexample). -/
theorem c10_dict_items_traversal_amended :
    ∀ (fuel : Nat) (sch : List (String × PyVal))
      (items kvs : List (String × PyVal)) (p : List Key) (e : Bool)
      (st : Errors) (v : PyVal) (st' : Errors),
      dictGet sch "type" = some (.str "dict") →
      dictGet sch "items" = some (.dict items) →
      dictGet sch "choices" = some PyVal.none →
      process (fuel + 1) (.dict sch) (.dict kvs) .native true true false p e
        st = .ok (v, st') →
      st' = st ∧ ∃ ps, v = .dict ps ∧
        List.Forall₂ (fun it pr =>
          pr.1 = it.1 ∧
          process fuel it.2 (dictGetD kvs it.1) .native true true false
            (p ++ [.s it.1]) true st = .ok (pr.2, st)) items ps := by
  intro fuel sch items kvs p e st v st' hty hit hch h
  have hp : ProcPres
      (fun s d p0 st0 => process fuel s d .native true true false p0 true
        st0) :=
    fun s d p0 st0 v0 st0' hh =>
      process_pres fuel s d .native true true false p0 st0 v0 st0' hh
  simp only [process, processStep, hty, typesKeyLookup, typesLookup] at h
  rw [substDefault_not_missing
    (show isMissing (PyVal.dict kvs) = false from rfl)] at h
  rw [substFillna_not_na
    (show isnaFn Ty.dict (PyVal.dict kvs) = false from rfl)] at h
  simp only [processCore] at h
  have hisna : isnaFn .dict (.dict kvs) = false := rfl
  rw [hisna] at h
  simp only [Bool.not_false, Bool.and_true, if_true] at h
  have hnat : nativeFn .dict sch (.dict kvs) = .ok (.dict kvs) := rfl
  rw [hnat] at h
  dsimp only at h
  rw [validateFn_dict_choices_none hch] at h
  dsimp only at h
  have hcont : containsKey sch "items" = true := by
    simp [containsKey, hit]
  have htr : traverseFn
      (fun s d p0 st0 => process fuel s d .native true true false p0 true st0)
      .dict sch (.dict kvs) p st =
      match dictItemsGo
        (fun s d p0 st0 =>
          process fuel s d .native true true false p0 true st0)
        false items (.dict kvs) p st with
      | .error e0 => .error e0
      | .ok (ps, st2) => .ok (.dict ps, st2) := by
    simp [traverseFn, dictTraverse, hcont, dictGetD, hit]
  rw [htr] at h
  cases hgo : dictItemsGo
      (fun s d p0 st0 => process fuel s d .native true true false p0 true st0)
      false items (.dict kvs) p st with
  | error e0 =>
    have hnv : ProcNoVE (fun s d p0 st0 =>
        process fuel s d .native true true false p0 true st0) :=
      fun s0 d0 p0 st0 es0 cnt0 hh =>
        process_no_ve fuel s0 d0 .native true true p0 true st0 es0 cnt0 hh
    cases e0 with
    | validationError es0 cnt0 =>
      exact absurd hgo (dictItemsGo_no_ve hnv _ _ _ _ _ _ _)
    | typeError m => rw [hgo] at h; simp at h
    | keyError m => rw [hgo] at h; simp at h
    | valueError m => rw [hgo] at h; simp at h
    | attributeError m => rw [hgo] at h; simp at h
    | fuelExhausted => rw [hgo] at h; simp at h
  | ok pr =>
    obtain ⟨ps, st2⟩ := pr
    rw [hgo] at h
    obtain ⟨hst2, hf⟩ := dictItemsGo_spec hp false (.dict kvs) p items st
      ps st2 hgo
    simp only [Bool.and_false, Bool.false_eq_true, if_false] at h
    have hks : v = .dict ps ∧ st' = st2 := by
      split_ifs at h <;>
        · simp only [Except.ok.injEq, Prod.mk.injEq] at h
          exact ⟨h.1.symm, h.2.symm⟩
    refine ⟨hks.2.trans hst2, ps, hks.1, ?_⟩
    refine List.Forall₂.imp ?_ hf
    intro it pr hR
    obtain ⟨hk, sub', dval, hsd, hget, hproc⟩ := hR
    simp only [Bool.false_eq_true, if_false, Except.ok.injEq] at hsd
    simp only [pyGetMethod, Except.ok.injEq] at hget
    subst hsd
    subst hget
    exact ⟨hk, hproc⟩

/-- Witness for the amended C10: dict schema with one declared integer item
`a`, input `{a: "5", b: 1}` — the output holds exactly the declared key
with the coerced value, the undeclared key `b` is dropped without error,
and the child was processed against `value.get('a', MISSING)`. -/
theorem c10_dict_items_traversal_amended_witness :
    (⟨[], 0⟩ : Errors) = (⟨[], 0⟩ : Errors) ∧ ∃ ps,
      PyVal.dict [("a", .int 5)] = .dict ps ∧
      List.Forall₂ (fun it pr =>
        pr.1 = it.1 ∧
        process 2 it.2
          (dictGetD [("a", .str "5"), ("b", .int 1)] it.1) .native true true
          false (([] : List Key) ++ [.s it.1]) true ⟨[], 0⟩ =
          .ok (pr.2, ⟨[], 0⟩))
        [("a", .dict [("type", .str "integer"), ("required", .bool false),
          ("choices", .none)])] ps :=
  c10_dict_items_traversal_amended 2
    [("type", .str "dict"), ("required", .bool false), ("choices", .none),
     ("items", .dict [("a", .dict [("type", .str "integer"),
       ("required", .bool false), ("choices", .none)])])]
    [("a", .dict [("type", .str "integer"), ("required", .bool false),
      ("choices", .none)])]
    [("a", .str "5"), ("b", .int 1)] [] false ⟨[], 0⟩
    (.dict [("a", .int 5)]) ⟨[], 0⟩ rfl rfl rfl rfl

/-- C1: the claim fails on the code.  Processing the dict schema
`{type: dict, items: {a: {type: boolean}}}` against `{a: "zzz"}` through
the façade does not record a coercion error under `items[a]` — it raises
`KeyError('key')`: the constructor's meta-schema validation strips `items`
from the schema, so `Dict.traverse` takes its no-`items` branch and looks
up the unregistered type tag `'key'`.  (Invoking `process` directly with an
`items`-bearing schema instead crashes with a `TypeError` when the nested
frame, whose `errors` parameter is `None`, tries to record the child's
error — see the C10 counterexample.)  Either way no error tree is built
and sibling/parent processing is aborted. -/
theorem c1_dict_error_accumulation_crashes :
    distaffNative 6 (.dict [("type", .str "dict"),
        ("items", .dict [("a", .dict [("type", .str "boolean")])])])
      (.dict [("a", .str "zzz")]) = .error (.keyError "key") := rfl

/-- C2: the claim fails on the code.  The spec scenario — schema
`{type: list, items: {type: integer}}`, data `[1, "2", "3", 4]`, native
mode — does not return `[1, 2, 3, 4]`: construction strips `items` from
the validated schema, so `List.traverse` raises `KeyError('items')`. -/
theorem c2_list_scenario_keyerror :
    distaffNative 6 (.dict [("type", .str "list"),
        ("items", .dict [("type", .str "integer")])])
      (.list [.int 1, .str "2", .str "3", .int 4]) =
      .error (.keyError "items") := rfl

/-- C7: the claim fails on the code for the integer plugin.  Coercing the
string `"-"` does not produce an accumulated coercion error:
`Integer.native` calls the bare built-in `int()`, whose `ValueError` is not
a `ValidationError` and escapes `Distaff.process` (and the whole `native()`
call) uncaught. -/
theorem c7_integer_coercion_valueerror_escapes :
    distaffNative 6 (.dict [("type", .str "integer")]) (.str "-") =
      .error (.valueError "invalid literal for int() with base 10: '-'") :=
  rfl

/-- C9: the claim fails on the code.  `toNative` does raise for plain data
shapes: processing `{a: 1}` under the schema `{type: dict}` raises
`KeyError('key')` (untyped dict traversal uses the unregistered tag
`'key'`), instead of reporting through the returned error tree. -/
theorem c9_native_raises_keyerror :
    distaffNative 6 (.dict [("type", .str "dict")]) (.dict [("a", .int 1)]) =
      .error (.keyError "key") := rfl
